import Mathlib

/-!
# Verification of the batched-write buffer in `jogo/goplayground`

Shallow embedding of `src/boltdb/main.go` (the canonical buffered variant):
the `boltType` struct with its `Writer` (put with automatic flush past the
threshold) and `Flush` (drain the buffer into one store transaction, fatal
abort on store error), plus the `mapType` baseline and the `keyValue` /
`writeTest` harness.

Modelling decisions:
* A Go `map[string]string` is modelled as an association list without
  duplicate keys (`KV`).  `mapInsert` overwrites the entry if the key is
  present and appends otherwise; `mapErase` models `delete`; `mapGet`
  models indexing / `Bucket.Get` (`none` for a missing key).
* Go map iteration order is unspecified; the `range` loop of `Flush` is
  modelled as iterating the association list in list order, one admissible
  order.  Since `Flush` deletes only the key it is currently visiting,
  every entry present when the loop starts is visited.
* The external `bolt.Bucket.Put` may return an error (invalid key, I/O
  failure, ...).  This external behaviour is modelled by an oracle
  `fail : String → String → Bool` passed to the semantics: `fail k v = true`
  means the store rejects that put.
* `Db.Update` is transactional: if the closure returns an error the
  transaction is rolled back, so the committed store is unchanged; on `nil`
  the accumulated writes commit.  `log.Fatal` terminates the process; it is
  modelled by the `RunState.aborted` outcome, which `runWriters` propagates.
-/

/-- Contents of a Go `map[string]string` (or of the bolt bucket), as an
association list without duplicate keys. -/
abbrev KV := List (String × String)

/-- Go map assignment `m[k] = v`: overwrite the entry if `k` is present,
otherwise add a new entry. -/
def mapInsert : KV → String → String → KV
  | [], k, v => [(k, v)]
  | p :: rest, k, v => if p.1 = k then (k, v) :: rest else p :: mapInsert rest k v

/-- Go `delete(m, k)`: remove the entry for `k`. -/
def mapErase : KV → String → KV
  | [], _ => []
  | p :: rest, k => if p.1 = k then mapErase rest k else p :: mapErase rest k

/-- Go map read `m[k]` / bolt `Bucket.Get`: `none` when the key is absent. -/
def mapGet : KV → String → Option String
  | [], _ => none
  | p :: rest, k => if p.1 = k then some p.2 else mapGet rest k

/-- Go `len(m)`: number of entries. -/
def mapLen (m : KV) : Nat := m.length

/-- The representation invariant of the association lists standing for Go
maps: no key occurs twice. -/
def KeysNodup (m : KV) : Prop := (m.map Prod.fst).Nodup

instance (m : KV) : Decidable (KeysNodup m) := by
  unfold KeysNodup; infer_instance

/-- The `mapType` baseline: a bare in-memory map (`db` field). -/
structure mapType where
  db : KV

/-- `(m *mapType) Writer(key, value string)`: plain map assignment. -/
def mapType.Writer (m : mapType) (key value : String) : mapType :=
  { db := mapInsert m.db key value }

/-- `(m *mapType) Flush()`: does nothing. -/
def mapType.Flush (m : mapType) : mapType := m

/-- `NewMapType()`: empty map. -/
def NewMapType : mapType := { db := [] }

/-- The `boltType` struct: `store` models the committed contents of the
bolt bucket behind the `Db` handle, `buffer` and `batchSize` are the
in-memory write buffer and its flush threshold. -/
structure boltType where
  store : KV
  buffer : KV
  batchSize : Nat
  deriving DecidableEq

/-- Outcome of an operation: `ok` is a normal return with the new state;
`aborted` is `log.Fatal` (process terminated), carrying the state at the
moment of the abort (store rolled back, buffer as mutated). -/
inductive RunState where
  | ok (s : boltType) : RunState
  | aborted (s : boltType) : RunState
  deriving DecidableEq

/-- Whether the outcome is a normal return. -/
def RunState.isOk : RunState → Bool
  | .ok _ => true
  | .aborted _ => false

/-- The committed store contents of an outcome. -/
def RunState.storeOf : RunState → KV
  | .ok s => s.store
  | .aborted s => s.store

/-- The buffer contents of an outcome. -/
def RunState.bufferOf : RunState → KV
  | .ok s => s.buffer
  | .aborted s => s.buffer

/-- The `range mybolt.buffer` loop body of `Flush`: `entries` is the list of
entries still to visit, `tx` the pending writes of the open transaction
(initially the committed store), `buf` the in-memory buffer being mutated.
Each step does `err := b.Put(key, value)`, then `delete(mybolt.buffer, key)`,
then returns `err` if it is non-nil.  Result: (error flag, transaction
writes, buffer left in memory). -/
def flushLoop (fail : String → String → Bool) :
    List (String × String) → KV → KV → Bool × KV × KV
  | [], tx, buf => (false, tx, buf)
  | (k, v) :: rest, tx, buf =>
    if fail k v then (true, tx, mapErase buf k)
    else flushLoop fail rest (mapInsert tx k v) (mapErase buf k)

/-- `(mybolt *boltType) Flush()`: run the update transaction over the
buffer.  If the closure returned an error the transaction is rolled back
(store unchanged) and `log.Fatal` fires (`aborted`); otherwise the writes
commit.  (`mybolt.Db.NoSync = true` has no observable effect in this
model.) -/
def boltType.Flush (fail : String → String → Bool) (s : boltType) : RunState :=
  let r := flushLoop fail s.buffer s.store s.buffer
  if r.1 then RunState.aborted { s with buffer := r.2.2 }
  else RunState.ok { s with store := r.2.1, buffer := r.2.2 }

/-- `(mybolt *boltType) Writer(key, value string)`: buffer the entry, then
flush if `len(mybolt.buffer) > mybolt.batchSize`.  The Go method returns
nothing; the Boolean here only records whether the threshold branch invoked
`Flush`, so that the trigger condition can be stated. -/
def boltType.Writer (fail : String → String → Bool) (s : boltType)
    (key value : String) : RunState × Bool :=
  let s' : boltType := { s with buffer := mapInsert s.buffer key value }
  if s.batchSize < mapLen s'.buffer then (boltType.Flush fail s', true)
  else (RunState.ok s', false)

/-- `NewBoltType(limit int)`: fresh empty bucket (`prepBolt` removes the db
file and creates an empty bucket; `limit` is unused), empty buffer,
`batchSize: 10000`. -/
def NewBoltType (_limit : Nat) : boltType :=
  { store := [], buffer := [], batchSize := 10000 }

/-- `keyValue(i int)`: key `strconv.Itoa(i)`, value `strings.Repeat(key, 5)`. -/
def keyValue (i : Nat) : String × String :=
  let key := toString i
  (key, key ++ key ++ key ++ key ++ key)

/-- The `Writer` loop of `writeTest`, over an explicit list of key/value
pairs; an abort (`log.Fatal`) stops the run. -/
def runWriters (fail : String → String → Bool) :
    RunState → List (String × String) → RunState
  | r, [] => r
  | RunState.ok s, (k, v) :: rest =>
      runWriters fail (boltType.Writer fail s k v).1 rest
  | RunState.aborted s, _ :: _ => RunState.aborted s

/-- `writeTest(myDb db, size int)` on the bolt backend: `Writer(keyValue i)`
for `i = 0 .. size-1`, then a final explicit `Flush` (timing omitted). -/
def writeTest (fail : String → String → Bool) (s : boltType) (size : Nat) :
    RunState :=
  match runWriters fail (RunState.ok s) ((List.range size).map keyValue) with
  | RunState.ok s' => boltType.Flush fail s'
  | r => r

/-- Insert every entry of a list into a map in order (the accumulated
writes of a fully successful flush transaction). -/
def insertAll (tx : KV) (entries : List (String × String)) : KV :=
  entries.foldl (fun t p => mapInsert t p.1 p.2) tx

/-- A store oracle that never fails (the normal benchmark run). -/
def failNever : String → String → Bool := fun _ _ => false

/-! ## Lemmas about the map operations -/

theorem mapGet_mapInsert_self (m : KV) (k v : String) :
    mapGet (mapInsert m k v) k = some v := by
  induction m with
  | nil => simp [mapInsert, mapGet]
  | cons p rest ih =>
    by_cases h : p.1 = k
    · simp [mapInsert, h, mapGet]
    · simp [mapInsert, h, mapGet, ih]

theorem mapGet_mapInsert_ne (m : KV) (k v k' : String) (h : k' ≠ k) :
    mapGet (mapInsert m k v) k' = mapGet m k' := by
  have h' : k ≠ k' := Ne.symm h
  induction m with
  | nil => simp [mapInsert, mapGet, h']
  | cons p rest ih =>
    by_cases hp : p.1 = k
    · subst hp
      simp [mapInsert, mapGet, h']
    · simp [mapInsert, if_neg hp, mapGet, ih]

theorem mem_keys_mapInsert (m : KV) (k v a : String) :
    a ∈ (mapInsert m k v).map Prod.fst ↔ a ∈ m.map Prod.fst ∨ a = k := by
  induction m with
  | nil => simp [mapInsert]
  | cons p rest ih =>
    by_cases hp : p.1 = k
    · subst hp
      rw [mapInsert, if_pos rfl]
      simp only [List.map_cons, List.mem_cons]
      tauto
    · rw [mapInsert, if_neg hp]
      simp only [List.map_cons, List.mem_cons, ih]
      tauto

theorem keysNodup_mapInsert (m : KV) (k v : String) (h : KeysNodup m) :
    KeysNodup (mapInsert m k v) := by
  induction m with
  | nil => simp [KeysNodup, mapInsert]
  | cons p rest ih =>
    rw [KeysNodup, List.map_cons, List.nodup_cons] at h
    by_cases hp : p.1 = k
    · subst hp
      simpa [KeysNodup, mapInsert] using h
    · rw [KeysNodup, mapInsert, if_neg hp, List.map_cons, List.nodup_cons]
      exact ⟨fun hc => (mem_keys_mapInsert rest k v p.1).mp hc |>.elim h.1 hp,
        ih h.2⟩

theorem mem_mapErase (m : KV) (k : String) (p : String × String) :
    p ∈ mapErase m k ↔ p ∈ m ∧ p.1 ≠ k := by
  induction m with
  | nil => simp [mapErase]
  | cons q rest ih =>
    by_cases hq : q.1 = k
    · rw [mapErase, if_pos hq, ih]
      constructor
      · exact fun ⟨h1, h2⟩ => ⟨List.mem_cons_of_mem q h1, h2⟩
      · rintro ⟨h1, h2⟩
        rcases List.mem_cons.mp h1 with h | h
        · exact absurd (h ▸ hq) h2
        · exact ⟨h, h2⟩
    · rw [mapErase, if_neg hq]
      constructor
      · intro hmem
        rcases List.mem_cons.mp hmem with h | h
        · exact ⟨h ▸ List.mem_cons_self q rest, h ▸ hq⟩
        · exact ⟨List.mem_cons_of_mem q (ih.mp h).1, (ih.mp h).2⟩
      · rintro ⟨h1, h2⟩
        rcases List.mem_cons.mp h1 with h | h
        · exact h ▸ List.mem_cons_self q (mapErase rest k)
        · exact List.mem_cons_of_mem q (ih.mpr ⟨h, h2⟩)

theorem mapErase_of_not_mem_keys (m : KV) (k : String)
    (h : k ∉ m.map Prod.fst) : mapErase m k = m := by
  induction m with
  | nil => rfl
  | cons p rest ih =>
    rw [List.map_cons, List.mem_cons, not_or] at h
    rw [mapErase, if_neg (fun hc => h.1 hc.symm), ih h.2]

/-! ## Lemmas about the flush loop -/

theorem flushLoop_ok_mem (fail : String → String → Bool) :
    ∀ (entries : List (String × String)) (tx buf tx' buf' : KV),
      flushLoop fail entries tx buf = (false, tx', buf') →
      ∀ p ∈ buf', p ∈ buf ∧ p.1 ∉ entries.map Prod.fst := by
  intro entries
  induction entries with
  | nil =>
    intro tx buf tx' buf' h p hp
    rw [flushLoop] at h
    cases h
    simpa using hp
  | cons q rest ih =>
    intro tx buf tx' buf' h p hp
    obtain ⟨k, v⟩ := q
    rw [flushLoop] at h
    by_cases hf : fail k v
    · rw [if_pos hf] at h; cases h
    · rw [if_neg hf] at h
      obtain ⟨h1, h2⟩ := ih _ _ _ _ h p hp
      obtain ⟨h3, h4⟩ := (mem_mapErase buf k p).mp h1
      exact ⟨h3, by simpa using not_or.mpr ⟨h4, h2⟩⟩

theorem flushLoop_ok_tx (fail : String → String → Bool) :
    ∀ (entries : List (String × String)) (tx buf tx' buf' : KV),
      flushLoop fail entries tx buf = (false, tx', buf') →
      tx' = insertAll tx entries ∧ ∀ p ∈ entries, fail p.1 p.2 = false := by
  intro entries
  induction entries with
  | nil =>
    intro tx buf tx' buf' h
    rw [flushLoop] at h
    cases h
    exact ⟨rfl, by simp⟩
  | cons q rest ih =>
    intro tx buf tx' buf' h
    obtain ⟨k, v⟩ := q
    rw [flushLoop] at h
    by_cases hf : fail k v
    · rw [if_pos hf] at h; cases h
    · rw [if_neg hf] at h
      obtain ⟨h1, h2⟩ := ih _ _ _ _ h
      refine ⟨h1, ?_⟩
      intro p hp
      rcases List.mem_cons.mp hp with hp | hp
      · simpa [hp] using hf
      · exact h2 p hp

theorem insertAll_nil (tx : KV) : insertAll tx [] = tx := rfl

theorem insertAll_cons (tx : KV) (p : String × String)
    (rest : List (String × String)) :
    insertAll tx (p :: rest) = insertAll (mapInsert tx p.1 p.2) rest := rfl

theorem mapGet_insertAll_not_mem (entries : List (String × String)) :
    ∀ (tx : KV) (k : String), k ∉ entries.map Prod.fst →
      mapGet (insertAll tx entries) k = mapGet tx k := by
  induction entries with
  | nil => intro tx k _; rfl
  | cons p rest ih =>
    intro tx k hk
    rw [List.map_cons, List.mem_cons, not_or] at hk
    rw [insertAll_cons, ih _ k hk.2, mapGet_mapInsert_ne _ _ _ _ hk.1]

theorem mapGet_insertAll_mem (entries : List (String × String)) :
    ∀ (tx : KV) (k v : String), KeysNodup entries → (k, v) ∈ entries →
      mapGet (insertAll tx entries) k = some v := by
  induction entries with
  | nil => intro tx k v _ h; cases h
  | cons p rest ih =>
    intro tx k v hnd hmem
    rw [KeysNodup, List.map_cons, List.nodup_cons] at hnd
    rcases List.mem_cons.mp hmem with h | h
    · have hp : p = (k, v) := h.symm
      subst hp
      rw [insertAll_cons, mapGet_insertAll_not_mem rest _ k hnd.1,
        mapGet_mapInsert_self]
    · rw [insertAll_cons]
      exact ih _ k v hnd.2 h

theorem mem_mapInsert_self (m : KV) (k v : String) :
    (k, v) ∈ mapInsert m k v := by
  induction m with
  | nil => exact List.mem_singleton.mpr rfl
  | cons p rest ih =>
    by_cases hp : p.1 = k
    · rw [mapInsert, if_pos hp]
      exact List.mem_cons_self _ _
    · rw [mapInsert, if_neg hp]
      exact List.mem_cons_of_mem p ih

theorem flush_ok_buffer_nil (fail : String → String → Bool) (s s' : boltType)
    (h : boltType.Flush fail s = RunState.ok s') : s'.buffer = [] := by
  rw [boltType.Flush] at h
  rcases hr : flushLoop fail s.buffer s.store s.buffer with ⟨e, tx', buf'⟩
  rw [hr] at h
  cases e with
  | true => simp at h
  | false =>
    simp only [if_neg Bool.false_ne_true] at h
    cases h
    rw [List.eq_nil_iff_forall_not_mem]
    intro p hp
    obtain ⟨h1, h2⟩ := flushLoop_ok_mem fail s.buffer s.store s.buffer tx' buf' hr p hp
    exact h2 (List.mem_map_of_mem Prod.fst h1)

theorem flush_ok_inv (fail : String → String → Bool) (s s' : boltType)
    (h : boltType.Flush fail s = RunState.ok s') :
    flushLoop fail s.buffer s.store s.buffer = (false, s'.store, s'.buffer) ∧
    s'.batchSize = s.batchSize := by
  rw [boltType.Flush] at h
  rcases hr : flushLoop fail s.buffer s.store s.buffer with ⟨e, tx', buf'⟩
  rw [hr] at h
  cases e with
  | true => simp at h
  | false =>
    simp only [if_neg Bool.false_ne_true] at h
    cases h
    exact ⟨rfl, rfl⟩

theorem flush_empty_buffer (fail : String → String → Bool) (s : boltType)
    (h : s.buffer = []) : boltType.Flush fail s = RunState.ok s := by
  obtain ⟨st, buf, bs⟩ := s
  simp only at h
  subst h
  rfl

theorem flushLoop_fail_at (fail : String → String → Bool) (k v : String)
    (post : List (String × String)) (hf : fail k v = true) :
    ∀ (pre : List (String × String)) (tx : KV),
      KeysNodup (pre ++ (k, v) :: post) →
      (∀ p ∈ pre, fail p.1 p.2 = false) →
      flushLoop fail (pre ++ (k, v) :: post) tx (pre ++ (k, v) :: post) =
        (true, insertAll tx pre, post) := by
  intro pre
  induction pre with
  | nil =>
    intro tx hnd _
    rw [KeysNodup, List.nil_append, List.map_cons, List.nodup_cons] at hnd
    rw [List.nil_append, flushLoop, if_pos hf, mapErase, if_pos rfl,
      mapErase_of_not_mem_keys post k hnd.1, insertAll_nil]
  | cons q pre ih =>
    intro tx hnd hpre
    obtain ⟨a, b⟩ := q
    have hnd' := hnd
    rw [KeysNodup, List.cons_append, List.map_cons, List.nodup_cons] at hnd'
    have hab : fail a b = false := hpre (a, b) (List.mem_cons_self _ _)
    rw [List.cons_append, flushLoop, if_neg (by simp [hab]), mapErase,
      if_pos rfl, mapErase_of_not_mem_keys _ _ hnd'.1]
    exact ih (mapInsert tx a b) hnd'.2 fun p hp => hpre p (List.mem_cons_of_mem _ hp)

theorem filter_key_of_not_mem (m : KV) (k : String)
    (h : k ∉ m.map Prod.fst) : m.filter (fun p => p.1 == k) = [] := by
  induction m with
  | nil => rfl
  | cons p rest ih =>
    rw [List.map_cons, List.mem_cons, not_or] at h
    rw [List.filter_cons_of_neg
      (by simp only [beq_iff_eq]; exact fun hc => h.1 hc.symm), ih h.2]

theorem countKey_mapInsert (m : KV) (k v : String) (hnd : KeysNodup m) :
    ((mapInsert m k v).filter (fun p => p.1 == k)).length = 1 := by
  induction m with
  | nil => simp [mapInsert]
  | cons p rest ih =>
    rw [KeysNodup, List.map_cons, List.nodup_cons] at hnd
    by_cases hp : p.1 = k
    · rw [mapInsert, if_pos hp,
        List.filter_cons_of_pos (by simp),
        filter_key_of_not_mem rest k (hp ▸ hnd.1)]
      rfl
    · rw [mapInsert, if_neg hp,
        List.filter_cons_of_neg (by simp [hp]), ih hnd.2]

theorem flush_ok_commits (fail : String → String → Bool) (s s' : boltType)
    (hnd : KeysNodup s.buffer) (h : boltType.Flush fail s = RunState.ok s') :
    s'.buffer = [] ∧
    s'.store = insertAll s.store s.buffer ∧
    ∀ p ∈ s.buffer, mapGet s'.store p.1 = some p.2 := by
  have hb := flush_ok_buffer_nil fail s s' h
  obtain ⟨hloop, -⟩ := flush_ok_inv fail s s' h
  obtain ⟨htx, -⟩ := flushLoop_ok_tx fail s.buffer s.store s.buffer _ _ hloop
  refine ⟨hb, htx, ?_⟩
  intro p hp
  obtain ⟨a, b⟩ := p
  rw [htx]
  exact mapGet_insertAll_mem s.buffer s.store a b hnd hp

/-! ## The claims -/

/-- C1: for every put, no automatic flush fires while the buffer holds at
most `batchSize` entries after the insert (the put returns normally with
just the updated buffer), and the put that brings the count to
`batchSize + 1` invokes the automatic flush. -/
theorem C1_threshold_trigger (fail : String → String → Bool) (s : boltType)
    (k v : String) :
    (mapLen (mapInsert s.buffer k v) ≤ s.batchSize →
      boltType.Writer fail s k v =
        (RunState.ok { s with buffer := mapInsert s.buffer k v }, false)) ∧
    (mapLen (mapInsert s.buffer k v) = s.batchSize + 1 →
      (boltType.Writer fail s k v).2 = true) := by
  constructor
  · intro h
    simp only [boltType.Writer]
    rw [if_neg (not_lt.mpr h)]
  · intro h
    simp only [boltType.Writer]
    rw [if_pos (by omega)]

/-- Witness for C1: with threshold 2, a put reaching 1 entry does not
flush; a put reaching 3 entries trips the flush branch. -/
theorem C1_threshold_trigger_witness :
    boltType.Writer failNever ⟨[], [], 2⟩ "a" "1" =
      (RunState.ok ⟨[], [("a", "1")], 2⟩, false) ∧
    (boltType.Writer failNever ⟨[], [("x", "0"), ("y", "0")], 2⟩ "a" "1").2 =
      true :=
  ⟨(C1_threshold_trigger failNever ⟨[], [], 2⟩ "a" "1").1 (by decide),
   (C1_threshold_trigger failNever ⟨[], [("x", "0"), ("y", "0")], 2⟩ "a" "1").2
     (by decide)⟩

/-- C2: after a flush completes successfully — whether requested
explicitly or triggered automatically by a put crossing the threshold —
the buffer holds 0 entries. -/
theorem C2_flush_empties (fail : String → String → Bool) (s : boltType) :
    (∀ s', boltType.Flush fail s = RunState.ok s' → s'.buffer = []) ∧
    (∀ k v s', boltType.Writer fail s k v = (RunState.ok s', true) →
      s'.buffer = []) := by
  refine ⟨fun s' h => flush_ok_buffer_nil fail s s' h, fun k v s' h => ?_⟩
  simp only [boltType.Writer] at h
  by_cases hc : s.batchSize < mapLen (mapInsert s.buffer k v)
  · rw [if_pos hc] at h
    exact flush_ok_buffer_nil fail _ s' (congrArg Prod.fst h)
  · rw [if_neg hc] at h
    simp at h

/-- Witness for C2: an explicit flush of a one-entry buffer succeeds and
leaves the buffer empty. -/
theorem C2_flush_empties_witness :
    (⟨[("a", "1")], [], 5⟩ : boltType).buffer = [] :=
  (C2_flush_empties failNever ⟨[], [("a", "1")], 5⟩).1
    ⟨[("a", "1")], [], 5⟩ (by decide)

/-- The round of C3 that additionally overwrites key "0" before the
commit: put `("0", "zzz")` first, then the three `keyValue` entries, then
flush. -/
def c3OverwriteRun : RunState :=
  match runWriters failNever (RunState.ok (NewBoltType 3))
      (("0", "zzz") :: (List.range 3).map keyValue) with
  | RunState.ok s => boltType.Flush failNever s
  | r => r

/-- C3: committing `("0","00000"), ("1","11111"), ("2","22222")` (the
`writeTest` run of size 3) and querying the store afterwards returns
exactly the committed values; if key "0" was overwritten before the flush,
only the last value put for it is committed. -/
theorem C3_roundtrip :
    (writeTest failNever (NewBoltType 3) 3).isOk = true ∧
    mapGet (writeTest failNever (NewBoltType 3) 3).storeOf "0" = some "00000" ∧
    mapGet (writeTest failNever (NewBoltType 3) 3).storeOf "1" = some "11111" ∧
    mapGet (writeTest failNever (NewBoltType 3) 3).storeOf "2" = some "22222" ∧
    c3OverwriteRun.isOk = true ∧
    mapGet c3OverwriteRun.storeOf "0" = some "00000" := by
  decide

/-- A store oracle reflecting bolt's documented `Put` failure on an empty
key (`ErrKeyRequired`); any other failure cause behaves the same way. -/
def failEmptyKey : String → String → Bool := fun k _ => k == ""

/-- C4: if the backing transaction fails, `Flush` ends in `log.Fatal`
(the `aborted` outcome, with the transaction rolled back and the store
unchanged); a normal return happens only when no store error occurred. -/
theorem C4_fatal_on_store_error (fail : String → String → Bool) (s : boltType) :
    ((flushLoop fail s.buffer s.store s.buffer).1 = true →
      boltType.Flush fail s =
        RunState.aborted
          { s with buffer := (flushLoop fail s.buffer s.store s.buffer).2.2 }) ∧
    (∀ s', boltType.Flush fail s = RunState.ok s' →
      (flushLoop fail s.buffer s.store s.buffer).1 = false) := by
  constructor
  · intro h
    simp only [boltType.Flush]
    rw [if_pos h]
  · intro s' h
    exact congrArg Prod.fst (flush_ok_inv fail s s' h).1

/-- Witness for C4: a buffer holding an empty key makes the transaction
fail, and `Flush` aborts with the store rolled back. -/
theorem C4_fatal_on_store_error_witness :
    boltType.Flush failEmptyKey ⟨[("z", "9")], [("", "1")], 10⟩ =
      RunState.aborted ⟨[("z", "9")], [], 10⟩ :=
  (C4_fatal_on_store_error failEmptyKey ⟨[("z", "9")], [("", "1")], 10⟩).1
    (by decide)

/-- C5: a successful flush has drained the whole buffer and committed all
of it in the one transaction: afterwards the buffer is empty, the store is
the old store plus every buffered entry, and querying the store at any
buffered key returns its buffered value. -/
theorem C5_flush_commits_all (fail : String → String → Bool) (s s' : boltType)
    (hnd : KeysNodup s.buffer) (h : boltType.Flush fail s = RunState.ok s') :
    s'.buffer = [] ∧
    s'.store = insertAll s.store s.buffer ∧
    ∀ p ∈ s.buffer, mapGet s'.store p.1 = some p.2 :=
  flush_ok_commits fail s s' hnd h

/-- Witness for C5: flushing a two-entry buffer commits both entries and
empties the buffer. -/
theorem C5_flush_commits_all_witness :
    (⟨[("0", "00000"), ("1", "11111")], [], 10⟩ : boltType).buffer = [] ∧
    mapGet (⟨[("0", "00000"), ("1", "11111")], [], 10⟩ : boltType).store "1" =
      some "11111" := by
  have h := C5_flush_commits_all failNever
    ⟨[], [("0", "00000"), ("1", "11111")], 10⟩
    ⟨[("0", "00000"), ("1", "11111")], [], 10⟩ (by decide) (by decide)
  exact ⟨h.1, h.2.2 ("1", "11111") (by decide)⟩

/-- C6: putting the same key twice before any flush leaves exactly one
buffer entry for it, holding the second value, and a subsequent successful
flush commits the second value for that key. -/
theorem C6_overwrite (fail : String → String → Bool) (st buf : KV) (T : Nat)
    (k v1 v2 : String) (hnd : KeysNodup buf) :
    ((mapInsert (mapInsert buf k v1) k v2).filter
        (fun p => p.1 == k)).length = 1 ∧
    mapGet (mapInsert (mapInsert buf k v1) k v2) k = some v2 ∧
    ∀ s', boltType.Flush fail ⟨st, mapInsert (mapInsert buf k v1) k v2, T⟩ =
        RunState.ok s' → mapGet s'.store k = some v2 := by
  have hnd1 : KeysNodup (mapInsert buf k v1) := keysNodup_mapInsert buf k v1 hnd
  have hnd2 : KeysNodup (mapInsert (mapInsert buf k v1) k v2) :=
    keysNodup_mapInsert _ k v2 hnd1
  refine ⟨countKey_mapInsert _ k v2 hnd1, mapGet_mapInsert_self _ k v2, ?_⟩
  intro s' h
  obtain ⟨-, -, hall⟩ := flush_ok_commits fail _ s' hnd2 h
  exact hall (k, v2) (mem_mapInsert_self _ k v2)

/-- Witness for C6: `put("5","A")` then `put("5","B")` on an empty buffer,
then a successful flush: one buffer entry for "5", and "B" is committed. -/
theorem C6_overwrite_witness :
    ((mapInsert (mapInsert [] "5" "A") "5" "B").filter
        (fun p => p.1 == "5")).length = 1 ∧
    mapGet (mapInsert (mapInsert [] "5" "A") "5" "B") "5" = some "B" ∧
    mapGet (⟨[("5", "B")], [], 10⟩ : boltType).store "5" = some "B" := by
  have h := C6_overwrite failNever [] [] 10 "5" "A" "B" (by decide)
  exact ⟨h.1, h.2.1, h.2.2 ⟨[("5", "B")], [], 10⟩ (by decide)⟩

/-- C7: at the normal return of any `Writer` or `Flush` call the buffer
count is at most the configured threshold (the count exceeds it only
transiently inside the call that immediately flushes). -/
theorem C7_size_invariant (fail : String → String → Bool) (s : boltType)
    (k v : String) :
    (∀ s', (boltType.Writer fail s k v).1 = RunState.ok s' →
      mapLen s'.buffer ≤ s.batchSize) ∧
    (∀ s', boltType.Flush fail s = RunState.ok s' →
      mapLen s'.buffer ≤ s.batchSize) := by
  constructor
  · intro s' h
    simp only [boltType.Writer] at h
    by_cases hc : s.batchSize < mapLen (mapInsert s.buffer k v)
    · rw [if_pos hc] at h
      rw [flush_ok_buffer_nil fail _ s' h]
      exact Nat.zero_le _
    · rw [if_neg hc] at h
      cases h
      exact not_lt.mp hc
  · intro s' h
    rw [flush_ok_buffer_nil fail s s' h]
    exact Nat.zero_le _

/-- Witness for C7: with threshold 1, a put that lands exactly on the
threshold returns with 1 ≤ 1 buffered entry, and an explicit flush of the
empty buffer returns with 0 ≤ 1. -/
theorem C7_size_invariant_witness :
    mapLen (⟨[], [("a", "1")], 1⟩ : boltType).buffer ≤ 1 ∧
    mapLen (⟨[], [], 1⟩ : boltType).buffer ≤ 1 :=
  ⟨(C7_size_invariant failNever ⟨[], [], 1⟩ "a" "1").1
      ⟨[], [("a", "1")], 1⟩ (by decide),
   (C7_size_invariant failNever ⟨[], [], 1⟩ "a" "1").2 ⟨[], [], 1⟩ (by decide)⟩

/-- C8: draining twice in a row without an intervening put: the first
successful flush leaves an empty buffer, and the second flush commits
nothing and returns with both the store and the (empty) buffer exactly as
the first left them. -/
theorem C8_drain_idempotent (fail : String → String → Bool) (s s' : boltType)
    (h : boltType.Flush fail s = RunState.ok s') :
    s'.buffer = [] ∧ boltType.Flush fail s' = RunState.ok s' := by
  have hb := flush_ok_buffer_nil fail s s' h
  exact ⟨hb, flush_empty_buffer fail s' hb⟩

/-- Witness for C8: flush a one-entry buffer, then flush again; the second
flush returns the state unchanged. -/
theorem C8_drain_idempotent_witness :
    (⟨[("a", "1")], [], 7⟩ : boltType).buffer = [] ∧
    boltType.Flush failNever ⟨[("a", "1")], [], 7⟩ =
      RunState.ok ⟨[("a", "1")], [], 7⟩ :=
  C8_drain_idempotent failNever ⟨[], [("a", "1")], 7⟩ ⟨[("a", "1")], [], 7⟩
    (by decide)

/-- A store oracle on which every `Put` fails. -/
def failAlways : String → String → Bool := fun _ _ => true

/-- C9 counterexample: a single `Writer` call (a put) can reach the fatal
abort: with the buffer at the threshold, putting an empty key triggers the
automatic flush, the store rejects the empty key, and `log.Fatal` fires —
so it is not true that for every key, value and buffer state a put
succeeds with no error condition reachable. -/
theorem C9_put_error_reachable :
    (boltType.Writer failEmptyKey ⟨[], [("a", "1")], 1⟩ "" "x").1.isOk =
      false := by
  decide

/-- C9 (amended): a put that does not bring the count above the threshold
always returns normally, touches only the in-memory buffer (the store is
unchanged), and records its entry, other keys unaffected; the pure
`mapType` put likewise records its entry and cannot fail. -/
theorem C9_put_total_below_threshold (fail : String → String → Bool)
    (s : boltType) (k v : String)
    (h : mapLen (mapInsert s.buffer k v) ≤ s.batchSize) :
    (boltType.Writer fail s k v).1 =
      RunState.ok { s with buffer := mapInsert s.buffer k v } ∧
    (boltType.Writer fail s k v).1.storeOf = s.store ∧
    mapGet (boltType.Writer fail s k v).1.bufferOf k = some v ∧
    (∀ k', k' ≠ k →
      mapGet (boltType.Writer fail s k v).1.bufferOf k' = mapGet s.buffer k') ∧
    (∀ m : mapType, mapGet (mapType.Writer m k v).db k = some v ∧
      ∀ k', k' ≠ k → mapGet (mapType.Writer m k v).db k' = mapGet m.db k') := by
  have hw : boltType.Writer fail s k v =
      (RunState.ok { s with buffer := mapInsert s.buffer k v }, false) := by
    simp only [boltType.Writer]
    rw [if_neg (not_lt.mpr h)]
  rw [hw]
  exact ⟨rfl, rfl, mapGet_mapInsert_self s.buffer k v,
    fun k' hk' => mapGet_mapInsert_ne s.buffer k v k' hk',
    fun m => ⟨mapGet_mapInsert_self m.db k v,
      fun k' hk' => mapGet_mapInsert_ne m.db k v k' hk'⟩⟩

/-- Witness for C9 (amended): a below-threshold put with a store that
would always fail still returns normally and records its entry. -/
theorem C9_put_total_below_threshold_witness :
    (boltType.Writer failAlways ⟨[("z", "9")], [], 3⟩ "a" "1").1 =
      RunState.ok ⟨[("z", "9")], [("a", "1")], 3⟩ ∧
    mapGet (mapType.Writer ⟨[]⟩ "a" "1").db "a" = some "1" := by
  have h := C9_put_total_below_threshold failAlways ⟨[("z", "9")], [], 3⟩
    "a" "1" (by decide)
  exact ⟨h.1, (h.2.2.2.2 ⟨[]⟩).1⟩

/-- C10: when the store rejects an entry mid-flush, every entry iterated
up to and including the failing one has already been deleted from the
in-memory buffer at the moment the fatal error is reported: the run aborts
with the buffer reduced to the entries after the failing one, and the
rolled-back store commits nothing. -/
theorem C10_failed_flush_discards (fail : String → String → Bool)
    (s : boltType) (pre post : List (String × String)) (k v : String)
    (hnd : KeysNodup s.buffer) (hsplit : s.buffer = pre ++ (k, v) :: post)
    (hpre : ∀ p ∈ pre, fail p.1 p.2 = false) (hf : fail k v = true) :
    boltType.Flush fail s = RunState.aborted { s with buffer := post } := by
  rw [hsplit] at hnd
  simp only [boltType.Flush, hsplit]
  rw [flushLoop_fail_at fail k v post hf pre s.store hnd hpre]
  rfl

/-- Witness for C10: the store fails on key "b"; the abort leaves only the
entry after "b" in the buffer, and the store keeps its pre-flush contents. -/
theorem C10_failed_flush_discards_witness :
    boltType.Flush (fun key _ => key == "b")
      ⟨[("z", "9")], [("a", "1"), ("b", "2"), ("c", "3")], 10⟩ =
      RunState.aborted ⟨[("z", "9")], [("c", "3")], 10⟩ :=
  C10_failed_flush_discards (fun key _ => key == "b")
    ⟨[("z", "9")], [("a", "1"), ("b", "2"), ("c", "3")], 10⟩
    [("a", "1")] [("c", "3")] "b" "2" (by decide) (by decide)
    (by decide) (by decide)
